import Mathlib

/-!
Verification of the JSON-to-XML converter (`src/utils/converters/json-to-xml.ts`).

The converter takes a JSON response produced by a language model (either as a
parsed value or as JSON text), and renders it into the XML tag format consumed
by the downstream tool parser.  This file gives a shallow embedding of the
converter and of the structural validator, and proves the specified properties.

Modelling conventions for the JavaScript semantics:
- a JavaScript value reachable from JSON is modelled by the inductive `Json`
  (`null`, booleans, integers, strings, arrays, objects);
- `Option Json` models a possibly-`undefined` value (`none` = `undefined`);
- property access on `null`/`undefined` throws, so fallible access is
  `jsGetField : Option Json → String → Except String (Option Json)`;
  access that the source guards so it cannot throw is the total `jsAccess`;
- exceptions thrown by the encoders are modelled by `Except String`;
- `JSON.parse` is a host builtin, not code of this repository, so the
  orchestrator and validator take it as an explicit parameter
  `parse : String → Except String Json` and every theorem quantifies over it.
-/

/-- JSON value model (JavaScript values reachable from parsed JSON). -/
inductive Json where
  | null : Json
  | bool (b : Bool) : Json
  | num (n : Int) : Json
  | str (s : String) : Json
  | arr (elems : List Json) : Json
  | obj (fields : List (String × Json)) : Json

/-- Lookup of a property in an object's field list (first binding wins;
field lists we build have distinct keys). -/
def lookupField : List (String × Json) → String → Option Json
  | [], _ => none
  | (k, v) :: rest, key => if k = key then some v else lookupField rest key

/-- JavaScript truthiness of a possibly-undefined value. -/
def jsTruthy : Option Json → Bool
  | none => false
  | some Json.null => false
  | some (Json.bool b) => b
  | some (Json.num n) => if n = 0 then false else true
  | some (Json.str s) => if s = "" then false else true
  | some (Json.arr _) => true
  | some (Json.obj _) => true

/-- Model of `typeof x === "object"` (true for objects, arrays and `null`). -/
def jsTypeofObject : Option Json → Bool
  | some Json.null => true
  | some (Json.obj _) => true
  | some (Json.arr _) => true
  | _ => false

/-- Property access on a value known not to be `null`/`undefined`:
objects look the key up, other values yield `undefined`. -/
def jsAccess (v : Option Json) (key : String) : Option Json :=
  match v with
  | some (Json.obj fields) => lookupField fields key
  | _ => none

/-- Model of the optional-chaining access `v?.key`: `null`/`undefined`
short-circuit to `undefined` instead of throwing. -/
def optChainGet (v : Option Json) (key : String) : Option Json :=
  match v with
  | some (Json.obj fields) => lookupField fields key
  | _ => none

/-- Model of JavaScript `a || b`. -/
def jsOr (a b : Option Json) : Option Json :=
  if jsTruthy a then a else b

/-- Fallible property access `v.key`: reading a property of `undefined` or
`null` throws a `TypeError`. -/
def jsGetField (v : Option Json) (key : String) : Except String (Option Json) :=
  match v with
  | none => Except.error ("Cannot read properties of undefined (reading " ++ key ++ ")")
  | some Json.null => Except.error ("Cannot read properties of null (reading " ++ key ++ ")")
  | some (Json.obj fields) => Except.ok (lookupField fields key)
  | some _ => Except.ok none

mutual

/-- JavaScript string coercion `String(v)` of a JSON-reachable value, as used
by template-literal interpolation. -/
def jsToString : Json → String
  | Json.null => "null"
  | Json.bool b => if b then "true" else "false"
  | Json.num n => toString n
  | Json.str s => s
  | Json.arr xs => jsArrToString xs
  | Json.obj _ => "[object Object]"

/-- Array-to-string coercion: elements joined with commas, `null` rendered
empty, matching `Array.prototype.toString`. -/
def jsArrToString : List Json → String
  | [] => ""
  | x :: xs =>
    let s := match x with
      | Json.null => ""
      | v => jsToString v
    match xs with
    | [] => s
    | _ => s ++ "," ++ jsArrToString xs

end

/-- Template-literal interpolation of a possibly-undefined value. -/
def jsInterp : Option Json → String
  | none => "undefined"
  | some v => jsToString v

/-- Model of `v.length === 0` for a truthy value: arrays and strings compare
their length, any other value has an `undefined` length, never equal to 0. -/
def jsLengthIsZero : Option Json → Bool
  | some (Json.arr xs) => xs.isEmpty
  | some (Json.str s) => s.isEmpty
  | _ => false

/-- Double-quote character (written via its code point to keep character
literals out of the embedding of the escaper). -/
def quotChar : Char := Char.ofNat 34

/-- Apostrophe character (code point 39). -/
def aposChar : Char := Char.ofNat 39

/-- Ampersand character. -/
def ampChar : Char := '&'

/-- Less-than character. -/
def ltChar : Char := '<'

/-- Greater-than character. -/
def gtChar : Char := '>'

/-- Characters of the entity `&amp;`. -/
def ampEnt : List Char := ['&', 'a', 'm', 'p', ';']

/-- Characters of the entity `&lt;`. -/
def ltEnt : List Char := ['&', 'l', 't', ';']

/-- Characters of the entity `&gt;`. -/
def gtEnt : List Char := ['&', 'g', 't', ';']

/-- Characters of the entity `&quot;`. -/
def quotEnt : List Char := ['&', 'q', 'u', 'o', 't', ';']

/-- Characters of the entity `&#39;`. -/
def aposEnt : List Char := ['&', '#', '3', '9', ';']

/-- Model of one global single-character regex replacement pass,
`s.replace(/c/g, rep)`, on the character list of the string. -/
def replaceAllChar (c : Char) (rep : List Char) : List Char → List Char
  | [] => []
  | d :: rest => (if d = c then rep else [d]) ++ replaceAllChar c rep rest

/-- Embedding of `escapeXml` at the character-list level: the five replacement
passes of the source in source order (`&` first, then `<`, `>`, `"`, `'`). -/
def escapeXmlList (l : List Char) : List Char :=
  replaceAllChar aposChar aposEnt
    (replaceAllChar quotChar quotEnt
      (replaceAllChar gtChar gtEnt
        (replaceAllChar ltChar ltEnt
          (replaceAllChar ampChar ampEnt l))))

/-- Embedding of `escapeXml` from the source: five chained global
replacements, applied to `&` first and then `<`, `>`, `"`, `'`. -/
def escapeXml (s : String) : String :=
  String.mk (escapeXmlList s.data)

/-- Per-character escaping function: the single-pass equivalent of the five
ordered substitution passes (proved equivalent below). -/
def escChar (c : Char) : List Char :=
  if c = ampChar then ampEnt
  else if c = ltChar then ltEnt
  else if c = gtChar then gtEnt
  else if c = quotChar then quotEnt
  else if c = aposChar then aposEnt
  else [c]

/-- Single left-to-right escaping pass over a character list. -/
def escMap : List Char → List Char
  | [] => []
  | c :: rest => escChar c ++ escMap rest

/-- Decidable check that `pat` is a prefix of the second list. -/
def startsWithChars : List Char → List Char → Bool
  | [], _ => true
  | _ :: _, [] => false
  | p :: ps, c :: cs => if p = c then startsWithChars ps cs else false

/-- Number of positions of the second list at which `pat` occurs. -/
def countOcc (pat : List Char) : List Char → Nat
  | [] => 0
  | c :: rest => (if startsWithChars pat (c :: rest) then 1 else 0) + countOcc pat rest

/-- Decidable check that `pat` occurs somewhere in the second list. -/
def occursIn (pat : List Char) : List Char → Bool
  | [] => startsWithChars pat []
  | c :: rest => startsWithChars pat (c :: rest) || occursIn pat rest

/-- Check that the list following an ampersand starts with the tail of one of
the five generated entities. -/
def entityTailOk (l : List Char) : Bool :=
  startsWithChars ['a', 'm', 'p', ';'] l || startsWithChars ['l', 't', ';'] l ||
  startsWithChars ['g', 't', ';'] l || startsWithChars ['q', 'u', 'o', 't', ';'] l ||
  startsWithChars ['#', '3', '9', ';'] l

/-- Check that every ampersand in the list begins one of the five entities. -/
def ampOk : List Char → Bool
  | [] => true
  | c :: rest => (if c = ampChar then entityTailOk rest else true) && ampOk rest

/-- Model of applying `escapeXml` to an arbitrary JavaScript value: the source
calls `unsafe.replace`, which only exists on strings, so any non-string
argument throws a `TypeError`. -/
def escapeXmlJs (v : Option Json) : Except String String :=
  match v with
  | some (Json.str s) => Except.ok (escapeXml s)
  | _ => Except.error "unsafe.replace is not a function"

/-- Model of `Array.prototype.join(sep)`. -/
def joinSep (sep : String) : List String → String
  | [] => ""
  | [x] => x
  | x :: xs => x ++ sep ++ joinSep sep xs

/-- Concatenation of a list of strings (the `xml += block` loop shape). -/
def concatAll : List String → String
  | [] => ""
  | x :: xs => x ++ concatAll xs

/-- Effectful map over a list in `Except`, aborting at the first error; this
is the semantics of `Array.prototype.map` (and of the `for` loop of the
read-file encoder) with a body that can throw. -/
def exceptMapM (f : α → Except String String) : List α → Except String (List String)
  | [] => Except.ok []
  | a :: l =>
    match f a with
    | Except.error e => Except.error e
    | Except.ok b =>
      match exceptMapM f l with
      | Except.error e => Except.error e
      | Except.ok bs => Except.ok (b :: bs)

/-- Body of the per-file loop of `convertReadFileToXml`: emits the
`<file>` block of one entry, with `<path>` (escaped) and a
truthiness-guarded `<line_range>` (escaped). -/
def readFileEntryBlock (file : Option Json) : Except String String := do
  let p ← jsGetField file "path"
  let pEsc ← escapeXmlJs p
  let lr ← jsGetField file "line_range"
  let lrPart ←
    if jsTruthy lr then do
      let lrEsc ← escapeXmlJs lr
      pure ("    <line_range>" ++ lrEsc ++ "</line_range>\n")
    else
      pure ""
  pure ("  <file>\n    <path>" ++ pEsc ++ "</path>\n" ++ lrPart ++ "  </file>\n")

/-- Embedding of `convertReadFileToXml`: wraps in `<read_file>`/`<args>`,
normalizes a non-array `args.file` into a one-element list, and emits one
`<file>` block per entry (the loop body is `readFileEntryBlock`). -/
def convertReadFileToXml (toolUse : Json) : Except String String := do
  let args ← jsGetField (some toolUse) "args"
  let fileVal ← jsGetField args "file"
  let files : List (Option Json) :=
    match fileVal with
    | some (Json.arr xs) => xs.map some
    | f => [f]
  let blocks ← exceptMapM readFileEntryBlock files
  pure ("<read_file>\n<args>\n" ++ concatAll blocks ++ "</args>\n</read_file>")

/-- Embedding of `convertSearchFilesToXml`. -/
def convertSearchFilesToXml (toolUse : Json) : Except String String := do
  let p ← jsGetField (some toolUse) "path"
  let pEsc ← escapeXmlJs p
  let r ← jsGetField (some toolUse) "regex"
  let rEsc ← escapeXmlJs r
  let fp ← jsGetField (some toolUse) "file_pattern"
  let fpPart ←
    if jsTruthy fp then do
      let fpEsc ← escapeXmlJs fp
      pure ("<file_pattern>" ++ fpEsc ++ "</file_pattern>\n")
    else
      pure ""
  pure ("<search_files>\n<path>" ++ pEsc ++ "</path>\n<regex>" ++ rEsc ++ "</regex>\n" ++
    fpPart ++ "</search_files>")

/-- Embedding of `convertListFilesToXml`: `<recursive>` is emitted exactly
when the field is not `undefined`, interpolated without escaping. -/
def convertListFilesToXml (toolUse : Json) : Except String String := do
  let p ← jsGetField (some toolUse) "path"
  let pEsc ← escapeXmlJs p
  let rcv ← jsGetField (some toolUse) "recursive"
  let rcvPart :=
    match rcv with
    | none => ""
    | some v => "<recursive>" ++ jsToString v ++ "</recursive>\n"
  pure ("<list_files>\n<path>" ++ pEsc ++ "</path>\n" ++ rcvPart ++ "</list_files>")

/-- Embedding of `convertListCodeDefinitionNamesToXml`. -/
def convertListCodeDefinitionNamesToXml (toolUse : Json) : Except String String := do
  let p ← jsGetField (some toolUse) "path"
  let pEsc ← escapeXmlJs p
  pure ("<list_code_definition_names>\n<path>" ++ pEsc ++ "</path>\n</list_code_definition_names>")

/-- Embedding of `convertWriteToFileToXml`: `line_count` is interpolated
verbatim (not escaped). -/
def convertWriteToFileToXml (toolUse : Json) : Except String String := do
  let p ← jsGetField (some toolUse) "path"
  let pEsc ← escapeXmlJs p
  let c ← jsGetField (some toolUse) "content"
  let cEsc ← escapeXmlJs c
  let lc ← jsGetField (some toolUse) "line_count"
  pure ("<write_to_file>\n<path>" ++ pEsc ++ "</path>\n<content>\n" ++ cEsc ++
    "\n</content>\n<line_count>" ++ jsInterp lc ++ "</line_count>\n</write_to_file>")

/-- Embedding of `convertApplyDiffToXml`. -/
def convertApplyDiffToXml (toolUse : Json) : Except String String := do
  let p ← jsGetField (some toolUse) "path"
  let pEsc ← escapeXmlJs p
  let d ← jsGetField (some toolUse) "diff"
  let dEsc ← escapeXmlJs d
  pure ("<apply_diff>\n<path>" ++ pEsc ++ "</path>\n<diff>\n" ++ dEsc ++
    "\n</diff>\n</apply_diff>")

/-- Embedding of `convertFetchInstructionsToXml`. -/
def convertFetchInstructionsToXml (toolUse : Json) : Except String String := do
  let t ← jsGetField (some toolUse) "task"
  let tEsc ← escapeXmlJs t
  pure ("<fetch_instructions>\n<task>" ++ tEsc ++ "</task>\n</fetch_instructions>")

/-- Embedding of `convertSingleToolToXml`: dispatch on the `tool` tag; an
unrecognized tag throws `Unknown tool type: ...` (modelled as `Except.error`). -/
def convertSingleToolToXml (toolUse : Json) : Except String String :=
  match jsGetField (some toolUse) "tool" with
  | Except.error m => Except.error m
  | Except.ok toolField =>
    match toolField with
    | some (Json.str "read_file") => convertReadFileToXml toolUse
    | some (Json.str "search_files") => convertSearchFilesToXml toolUse
    | some (Json.str "list_files") => convertListFilesToXml toolUse
    | some (Json.str "list_code_definition_names") => convertListCodeDefinitionNamesToXml toolUse
    | some (Json.str "write_to_file") => convertWriteToFileToXml toolUse
    | some (Json.str "apply_diff") => convertApplyDiffToXml toolUse
    | some (Json.str "fetch_instructions") => convertFetchInstructionsToXml toolUse
    | tf => Except.error ("Unknown tool type: " ++ jsInterp tf)

/-- Embedding of `convertMultipleToolsToXml`: encode each invocation and join
the fragments with a blank line. -/
def convertMultipleToolsToXml (tools : List Json) : Except String String :=
  match exceptMapM convertSingleToolToXml tools with
  | Except.error e => Except.error e
  | Except.ok frags => Except.ok (joinSep "\n\n" frags)

/-- Result envelope of the conversion orchestrator.  The source declares
`xml`, `reasoning` and `thinking` as optional strings, but at runtime they
carry whatever value the response held, so the model keeps `Json`.  `none`
models an absent/`undefined` field. -/
structure ConversionResult where
  success : Bool
  xml : Option Json := none
  error : Option String := none
  reasoning : Option Json := none
  thinking : Option Json := none

/-- Embedding of the body of `convertJsonToXml` after the string-input case:
object check, eager extraction of `thinking`/`reasoning`, branch on
`response_type`, with dispatcher exceptions caught into a failure result. -/
def convertParsedResponse (pr : Option Json) : ConversionResult :=
  if !(jsTruthy pr && jsTypeofObject pr) then
    { success := false, error := some "Invalid input: expected object or JSON string" }
  else
    let thinking := jsAccess pr "thinking"
    let reasoning := jsOr (optChainGet (jsAccess pr "single_tool") "reasoning")
      (optChainGet (jsAccess pr "multiple_tools") "reasoning")
    match jsAccess pr "response_type" with
    | some (Json.str "text_only") =>
      let tr := jsAccess pr "text_response"
      { success := true
        xml := some (if jsTruthy tr then tr.getD Json.null else Json.str "")
        thinking := thinking }
    | some (Json.str "single_tool") =>
      let tu := optChainGet (jsAccess pr "single_tool") "tool_use"
      if jsTruthy tu then
        match convertSingleToolToXml (tu.getD Json.null) with
        | Except.ok x =>
          { success := true, xml := some (Json.str x), thinking := thinking,
            reasoning := reasoning }
        | Except.error m =>
          { success := false, error := some ("Conversion error: " ++ m) }
      else
        { success := false, error := some "Single tool response missing tool_use" }
    | some (Json.str "multiple_tools") =>
      let tools := optChainGet (jsAccess pr "multiple_tools") "tools"
      if !(jsTruthy tools) || jsLengthIsZero tools then
        { success := false, error := some "Multiple tools response missing tools array" }
      else
        match tools with
        | some (Json.arr ts) =>
          match convertMultipleToolsToXml ts with
          | Except.ok x =>
            { success := true, xml := some (Json.str x), thinking := thinking,
              reasoning := reasoning }
          | Except.error m =>
            { success := false, error := some ("Conversion error: " ++ m) }
        | _ =>
          { success := false,
            error := some "Conversion error: response.multiple_tools.tools.map is not a function" }
    | rt =>
      { success := false, error := some ("Unknown response_type: " ++ jsInterp rt) }

/-- Embedding of `convertJsonToXml`: string input goes through the host
`JSON.parse` (passed as the `parse` parameter); a parse failure is converted
to a failure result, never re-thrown. -/
def convertJsonToXml (parse : String → Except String Json) (input : Option Json) :
    ConversionResult :=
  match input with
  | some (Json.str s) =>
    match parse s with
    | Except.error m =>
      { success := false, error := some ("Failed to parse JSON string: " ++ m) }
    | Except.ok j => convertParsedResponse (some j)
  | v => convertParsedResponse v

/-- Result of the structural validator. -/
structure ValidationResult where
  valid : Bool
  errors : List String

/-- Check that a `response_type` value is one of the three known
discriminant strings (the `includes` test of the source). -/
def rtIncluded : Option Json → Bool
  | some (Json.str "single_tool") => true
  | some (Json.str "multiple_tools") => true
  | some (Json.str "text_only") => true
  | _ => false

/-- Embedding of the body of `validateJsonStructure` after parsing: shallow
additive checks, errors accumulated in push order. -/
def validateParsed (response : Option Json) : ValidationResult :=
  if !(jsTruthy response && jsTypeofObject response) then
    { valid := false, errors := ["Response must be an object"] }
  else
    let rt := jsAccess response "response_type"
    let headErrors : List String :=
      if !(jsTruthy rt) then ["Missing required field: response_type"]
      else if !(rtIncluded rt) then ["Invalid response_type: " ++ jsInterp rt]
      else []
    let caseErrors : List String :=
      match rt with
      | some (Json.str "single_tool") =>
        let st := jsAccess response "single_tool"
        if !(jsTruthy st) then ["single_tool field is required for single_tool response_type"]
        else if !(jsTruthy (jsAccess st "tool_use")) then ["tool_use field is required in single_tool"]
        else []
      | some (Json.str "multiple_tools") =>
        let mt := jsAccess response "multiple_tools"
        if !(jsTruthy mt) then ["multiple_tools field is required for multiple_tools response_type"]
        else
          match jsAccess mt "tools" with
          | some (Json.arr ts) => if ts.isEmpty then ["tools array cannot be empty"] else []
          | _ => ["tools field must be an array in multiple_tools"]
      | some (Json.str "text_only") =>
        if !(jsTruthy (jsAccess response "text_response")) then
          ["text_response field is required for text_only response_type"]
        else []
      | _ => []
    let errors := headErrors ++ caseErrors
    { valid := errors.isEmpty, errors := errors }

/-- Embedding of `validateJsonStructure`: string input goes through the host
`JSON.parse` (the `parse` parameter); a parse failure is reported as a single
`JSON parsing error` entry. -/
def validateJsonStructure (parse : String → Except String Json) (input : Option Json) :
    ValidationResult :=
  match input with
  | some (Json.str s) =>
    match parse s with
    | Except.error m => { valid := false, errors := ["JSON parsing error: " ++ m] }
    | Except.ok j => validateParsed (some j)
  | v => validateParsed v

/-! ### Properties of the escaper -/

theorem replaceAllChar_append (c : Char) (rep : List Char) (a b : List Char) :
    replaceAllChar c rep (a ++ b) = replaceAllChar c rep a ++ replaceAllChar c rep b := by
  induction a with
  | nil => rfl
  | cons d rest ih => simp [replaceAllChar, ih]

theorem escapeXmlList_singleton (c : Char) : escapeXmlList [c] = escChar c := by
  by_cases h1 : c = ampChar
  · subst h1; decide
  · by_cases h2 : c = ltChar
    · subst h2; decide
    · by_cases h3 : c = gtChar
      · subst h3; decide
      · by_cases h4 : c = quotChar
        · subst h4; decide
        · by_cases h5 : c = aposChar
          · subst h5; decide
          · simp [escapeXmlList, replaceAllChar, escChar, h1, h2, h3, h4, h5]

theorem escapeXmlList_cons (c : Char) (l : List Char) :
    escapeXmlList (c :: l) = escChar c ++ escapeXmlList l := by
  have hsplit : (c :: l) = [c] ++ l := rfl
  rw [← escapeXmlList_singleton c]
  simp only [escapeXmlList, hsplit, replaceAllChar_append]

theorem escapeXmlList_eq_escMap (l : List Char) : escapeXmlList l = escMap l := by
  induction l with
  | nil => rfl
  | cons c rest ih => rw [escapeXmlList_cons, escMap, ih]

theorem escChar_cases (c : Char) :
    (c = ampChar ∧ escChar c = ampEnt) ∨ (c = ltChar ∧ escChar c = ltEnt) ∨
    (c = gtChar ∧ escChar c = gtEnt) ∨ (c = quotChar ∧ escChar c = quotEnt) ∨
    (c = aposChar ∧ escChar c = aposEnt) ∨
    (c ≠ ampChar ∧ c ≠ ltChar ∧ c ≠ gtChar ∧ c ≠ quotChar ∧ c ≠ aposChar ∧ escChar c = [c]) := by
  by_cases h1 : c = ampChar
  · exact Or.inl ⟨h1, by simp [escChar, h1]⟩
  by_cases h2 : c = ltChar
  · exact Or.inr (Or.inl ⟨h2, by rw [h2]; decide⟩)
  by_cases h3 : c = gtChar
  · exact Or.inr (Or.inr (Or.inl ⟨h3, by rw [h3]; decide⟩))
  by_cases h4 : c = quotChar
  · exact Or.inr (Or.inr (Or.inr (Or.inl ⟨h4, by rw [h4]; decide⟩)))
  by_cases h5 : c = aposChar
  · exact Or.inr (Or.inr (Or.inr (Or.inr (Or.inl ⟨h5, by rw [h5]; decide⟩))))
  · exact Or.inr (Or.inr (Or.inr (Or.inr (Or.inr
      ⟨h1, h2, h3, h4, h5, by simp [escChar, h1, h2, h3, h4, h5]⟩))))

theorem not_mem_escChar (t c : Char)
    (ht : t = ltChar ∨ t = gtChar ∨ t = quotChar ∨ t = aposChar) : t ∉ escChar c := by
  rcases escChar_cases c with ⟨_, he⟩ | ⟨_, he⟩ | ⟨_, he⟩ | ⟨_, he⟩ | ⟨_, he⟩ |
    ⟨_, h2, h3, h4, h5, he⟩ <;> rw [he]
  · rcases ht with rfl | rfl | rfl | rfl <;> decide
  · rcases ht with rfl | rfl | rfl | rfl <;> decide
  · rcases ht with rfl | rfl | rfl | rfl <;> decide
  · rcases ht with rfl | rfl | rfl | rfl <;> decide
  · rcases ht with rfl | rfl | rfl | rfl <;> decide
  · rcases ht with rfl | rfl | rfl | rfl
    · exact fun h => h2 (List.mem_singleton.mp h).symm
    · exact fun h => h3 (List.mem_singleton.mp h).symm
    · exact fun h => h4 (List.mem_singleton.mp h).symm
    · exact fun h => h5 (List.mem_singleton.mp h).symm

theorem not_mem_escMap (t : Char)
    (ht : t = ltChar ∨ t = gtChar ∨ t = quotChar ∨ t = aposChar) (l : List Char) :
    t ∉ escMap l := by
  induction l with
  | nil => simp [escMap]
  | cons c rest ih =>
    rw [escMap]
    intro hmem
    rcases List.mem_append.mp hmem with h | h
    · exact not_mem_escChar t c ht h
    · exact ih h

theorem ampOk_escChar_append (c : Char) (y : List Char) (hy : ampOk y = true) :
    ampOk (escChar c ++ y) = true := by
  rcases escChar_cases c with ⟨_, he⟩ | ⟨_, he⟩ | ⟨_, he⟩ | ⟨_, he⟩ | ⟨_, he⟩ |
    ⟨h1, _, _, _, _, he⟩ <;> rw [he]
  · simp [ampEnt, ampOk, entityTailOk, startsWithChars, ampChar, hy]
  · simp [ltEnt, ampOk, entityTailOk, startsWithChars, ampChar, hy]
  · simp [gtEnt, ampOk, entityTailOk, startsWithChars, ampChar, hy]
  · simp [quotEnt, ampOk, entityTailOk, startsWithChars, ampChar, hy]
  · simp [aposEnt, ampOk, entityTailOk, startsWithChars, ampChar, hy]
  · simp [ampOk, h1, hy]

theorem ampOk_escMap (l : List Char) : ampOk (escMap l) = true := by
  induction l with
  | nil => rfl
  | cons c rest ih => rw [escMap]; exact ampOk_escChar_append c (escMap rest) ih

theorem startsWithChars_head_ne (p c : Char) (ps z : List Char) (h : p ≠ c) :
    startsWithChars (p :: ps) (c :: z) = false := by
  simp [startsWithChars, h]

theorem countOcc_head_ne (p c : Char) (ps z : List Char) (h : p ≠ c) :
    countOcc (p :: ps) (c :: z) = countOcc (p :: ps) z := by
  simp [countOcc, startsWithChars_head_ne p c ps z h]

theorem startsWithChars_self_append (l y : List Char) :
    startsWithChars l (l ++ y) = true := by
  induction l with
  | nil => rfl
  | cons c rest ih => simp [startsWithChars, ih]

theorem countOcc_ent_append (pat entc : List Char) (y : List Char)
    (hpat : pat ∈ [ampEnt, ltEnt, gtEnt, quotEnt, aposEnt])
    (hent : entc ∈ [ampEnt, ltEnt, gtEnt, quotEnt, aposEnt]) :
    countOcc pat (entc ++ y) = (if pat = entc then 1 else 0) + countOcc pat y := by
  fin_cases hpat <;> fin_cases hent <;>
    simp [countOcc, startsWithChars, ampEnt, ltEnt, gtEnt, quotEnt, aposEnt,
      startsWithChars_self_append]

theorem countOcc_escChar (pat : List Char) (src : Char)
    (hpat : (pat = ampEnt ∧ src = ampChar) ∨ (pat = ltEnt ∧ src = ltChar) ∨
      (pat = gtEnt ∧ src = gtChar) ∨ (pat = quotEnt ∧ src = quotChar) ∨
      (pat = aposEnt ∧ src = aposChar))
    (c : Char) (y : List Char) :
    countOcc pat (escChar c ++ y) = (if c = src then 1 else 0) + countOcc pat y := by
  rcases escChar_cases c with ⟨hc, he⟩ | ⟨hc, he⟩ | ⟨hc, he⟩ | ⟨hc, he⟩ | ⟨hc, he⟩ |
    ⟨h1, h2, h3, h4, h5, he⟩ <;> rw [he] <;>
    rcases hpat with ⟨rfl, rfl⟩ | ⟨rfl, rfl⟩ | ⟨rfl, rfl⟩ | ⟨rfl, rfl⟩ | ⟨rfl, rfl⟩
  all_goals first
  | (rw [countOcc_ent_append _ _ _ (by simp) (by simp)]
     subst hc
     exact congr_arg₂ (· + ·) (by decide) rfl)
  | (simp only [List.singleton_append, ampEnt, ltEnt, gtEnt, quotEnt, aposEnt]
     rw [countOcc_head_ne _ _ _ _ ((fun hh => h1 hh.symm) : ('&' : Char) ≠ c),
       if_neg (by first | exact h1 | exact h2 | exact h3 | exact h4 | exact h5)]
     omega)

theorem countOcc_escMap (pat : List Char) (src : Char)
    (hpat : (pat = ampEnt ∧ src = ampChar) ∨ (pat = ltEnt ∧ src = ltChar) ∨
      (pat = gtEnt ∧ src = gtChar) ∨ (pat = quotEnt ∧ src = quotChar) ∨
      (pat = aposEnt ∧ src = aposChar))
    (l : List Char) :
    countOcc pat (escMap l) = l.count src := by
  induction l with
  | nil => simp [escMap, countOcc, List.count_nil]
  | cons c rest ih =>
    rw [escMap, countOcc_escChar pat src hpat c, ih, List.count_cons]
    by_cases hcs : c = src
    · simp [hcs]
      omega
    · simp [hcs]

/-- Image of a specification-level `FileRef` (a path with an optional
`line_range` string) as a JSON object, as the schema produces it. -/
def fileRefToJson (p : String) (lr : Option String) : Json :=
  Json.obj (("path", Json.str p) ::
    (match lr with
     | some r => [("line_range", Json.str r)]
     | none => []))

/-- Expected rendering of one `<file>` block, written from the words of the
specification (amended: `line_range` is emitted only when non-empty, since
the source guards it with a truthiness test). -/
def fileRefBlockSpec (p : String) (lr : Option String) : String :=
  "  <file>\n    <path>" ++ escapeXml p ++ "</path>\n" ++
    (match lr with
     | some r => if r = "" then "" else "    <line_range>" ++ escapeXml r ++ "</line_range>\n"
     | none => "") ++ "  </file>\n"

theorem readFileEntryBlock_eval (p : String) (lr : Option String) :
    readFileEntryBlock (some (fileRefToJson p lr)) = Except.ok (fileRefBlockSpec p lr) := by
  cases lr with
  | none => rfl
  | some r =>
    by_cases hr : r = ""
    · subst hr; rfl
    · simp [readFileEntryBlock, fileRefToJson, fileRefBlockSpec, jsGetField, lookupField,
        escapeXmlJs, jsTruthy, hr, Bind.bind, Except.bind, pure, Except.pure]

theorem exceptMapM_fileRefs (refs : List (String × Option String)) :
    exceptMapM readFileEntryBlock
        ((refs.map (fun pr => fileRefToJson pr.1 pr.2)).map some) =
      Except.ok (refs.map (fun pr => fileRefBlockSpec pr.1 pr.2)) := by
  induction refs with
  | nil => rfl
  | cons a rest ih =>
    simp only [List.map_cons, exceptMapM, readFileEntryBlock_eval a.1 a.2, ih]

theorem exceptMapM_length (f : α → Except String String) (l : List α) (bs : List String)
    (h : exceptMapM f l = Except.ok bs) : bs.length = l.length := by
  induction l generalizing bs with
  | nil =>
    simp only [exceptMapM] at h
    cases h
    rfl
  | cons a rest ih =>
    simp only [exceptMapM] at h
    cases hfa : f a with
    | error e => rw [hfa] at h; cases h
    | ok b =>
      rw [hfa] at h
      cases hrest : exceptMapM f rest with
      | error e => rw [hrest] at h; cases h
      | ok bs2 =>
        rw [hrest] at h
        cases h
        simp [ih bs2 hrest]

theorem joinSep_cons_of_ne_nil (sep x : String) (xs : List String) (h : xs ≠ []) :
    joinSep sep (x :: xs) = x ++ sep ++ joinSep sep xs := by
  cases xs with
  | nil => exact absurd rfl h
  | cons y ys => rfl

theorem convertMultipleToolsToXml_inv (ts : List Json) (rest : String)
    (h : convertMultipleToolsToXml ts = Except.ok rest) :
    ∃ frags, exceptMapM convertSingleToolToXml ts = Except.ok frags ∧
      rest = joinSep "\n\n" frags := by
  unfold convertMultipleToolsToXml at h
  cases he : exceptMapM convertSingleToolToXml ts with
  | error e => rw [he] at h; cases h
  | ok frags =>
    rw [he] at h
    cases h
    exact ⟨frags, rfl, rfl⟩

theorem convertParsedResponse_wf (pr : Option Json) :
    ((convertParsedResponse pr).xml.isSome = true ↔ (convertParsedResponse pr).success = true) ∧
    ((convertParsedResponse pr).success = false →
      (convertParsedResponse pr).error.isSome = true ∧
      (convertParsedResponse pr).xml = none ∧
      (convertParsedResponse pr).thinking = none ∧
      (convertParsedResponse pr).reasoning = none) := by
  unfold convertParsedResponse
  dsimp only
  repeat' split
  all_goals simp

theorem convertJsonToXml_wf (parse : String → Except String Json) (input : Option Json) :
    ((convertJsonToXml parse input).xml.isSome = true ↔
      (convertJsonToXml parse input).success = true) ∧
    ((convertJsonToXml parse input).success = false →
      (convertJsonToXml parse input).error.isSome = true ∧
      (convertJsonToXml parse input).xml = none ∧
      (convertJsonToXml parse input).thinking = none ∧
      (convertJsonToXml parse input).reasoning = none) := by
  unfold convertJsonToXml
  split
  · split
    · simp
    · exact convertParsedResponse_wf _
  · exact convertParsedResponse_wf _

/-! ### Claim theorems -/

/-- C2: `escapeXml` performs the five substitutions in the order `&`, `<`,
`>`, `"`, `'` — equivalently a single left-to-right pass (`escMap`), so no
generated entity is re-escaped — and consequently its output contains no
literal `<`, `>`, `"` or `'`, every `&` of the output begins one of the five
entities, and each entity occurs exactly as often as the corresponding source
character occurred. -/
theorem escapeXml_spec (s : String) :
    (escapeXml s).data = escMap s.data ∧
    ltChar ∉ (escapeXml s).data ∧ gtChar ∉ (escapeXml s).data ∧
    quotChar ∉ (escapeXml s).data ∧ aposChar ∉ (escapeXml s).data ∧
    ampOk (escapeXml s).data = true ∧
    countOcc ampEnt (escapeXml s).data = s.data.count ampChar ∧
    countOcc ltEnt (escapeXml s).data = s.data.count ltChar ∧
    countOcc gtEnt (escapeXml s).data = s.data.count gtChar ∧
    countOcc quotEnt (escapeXml s).data = s.data.count quotChar ∧
    countOcc aposEnt (escapeXml s).data = s.data.count aposChar := by
  have hdata : (escapeXml s).data = escMap s.data := escapeXmlList_eq_escMap s.data
  refine ⟨hdata, ?_, ?_, ?_, ?_, ?_, ?_, ?_, ?_, ?_, ?_⟩ <;> rw [hdata]
  · exact not_mem_escMap _ (Or.inl rfl) _
  · exact not_mem_escMap _ (Or.inr (Or.inl rfl)) _
  · exact not_mem_escMap _ (Or.inr (Or.inr (Or.inl rfl))) _
  · exact not_mem_escMap _ (Or.inr (Or.inr (Or.inr rfl))) _
  · exact ampOk_escMap _
  · exact countOcc_escMap _ _ (Or.inl ⟨rfl, rfl⟩) _
  · exact countOcc_escMap _ _ (Or.inr (Or.inl ⟨rfl, rfl⟩)) _
  · exact countOcc_escMap _ _ (Or.inr (Or.inr (Or.inl ⟨rfl, rfl⟩))) _
  · exact countOcc_escMap _ _ (Or.inr (Or.inr (Or.inr (Or.inl ⟨rfl, rfl⟩)))) _
  · exact countOcc_escMap _ _ (Or.inr (Or.inr (Or.inr (Or.inr ⟨rfl, rfl⟩)))) _

/-- C8: `escapeXml` is not idempotent — applying it twice to `"&"`
double-escapes and yields a result different from applying it once. -/
theorem escapeXml_not_idempotent :
    escapeXml "&" = "&amp;" ∧ escapeXml (escapeXml "&") = "&amp;amp;" ∧
    escapeXml (escapeXml "&") ≠ escapeXml "&" :=
  ⟨rfl, rfl, by decide⟩

/-- C9: for every parse function and input, the result of `convertJsonToXml`
has `xml` defined exactly when `success` is true, and every failure result
carries an error message and carries neither `xml` nor `thinking` nor
`reasoning`. -/
theorem convertJsonToXml_result_invariant (parse : String → Except String Json)
    (input : Option Json) :
    ((convertJsonToXml parse input).xml.isSome = true ↔
      (convertJsonToXml parse input).success = true) ∧
    ((convertJsonToXml parse input).success = false →
      (convertJsonToXml parse input).error.isSome = true ∧
      (convertJsonToXml parse input).xml = none ∧
      (convertJsonToXml parse input).thinking = none ∧
      (convertJsonToXml parse input).reasoning = none) :=
  convertJsonToXml_wf parse input

/-- Witness for C9: at the concrete input `{}` the conversion fails and the
theorem yields the failure-shape facts. -/
theorem convertJsonToXml_result_invariant_witness :
    (convertJsonToXml (fun s => Except.error s) (some (Json.obj []))).error.isSome = true ∧
    (convertJsonToXml (fun s => Except.error s) (some (Json.obj []))).xml = none ∧
    (convertJsonToXml (fun s => Except.error s) (some (Json.obj []))).thinking = none ∧
    (convertJsonToXml (fun s => Except.error s) (some (Json.obj []))).reasoning = none :=
  (convertJsonToXml_result_invariant (fun s => Except.error s) (some (Json.obj []))).2 rfl

/-- C4: a response object whose `response_type` is `text_only` and whose
`text_response` is a string converts to success with `xml` equal to that
string verbatim — no escaping, no wrapping (for the empty string the source
falls back to `""`, which is again the same string). -/
theorem convertJsonToXml_textOnly_verbatim (parse : String → Except String Json)
    (fs : List (String × Json)) (s : String)
    (hrt : lookupField fs "response_type" = some (Json.str "text_only"))
    (htr : lookupField fs "text_response" = some (Json.str s)) :
    convertJsonToXml parse (some (Json.obj fs)) =
      { success := true, xml := some (Json.str s),
        thinking := lookupField fs "thinking" } := by
  have h0 : convertJsonToXml parse (some (Json.obj fs)) =
      convertParsedResponse (some (Json.obj fs)) := rfl
  rw [h0]
  unfold convertParsedResponse
  rw [if_neg (by simp [jsTruthy, jsTypeofObject])]
  have hacc : jsAccess (some (Json.obj fs)) "response_type" = lookupField fs "response_type" := rfl
  rw [hacc, hrt]
  have hacc2 : jsAccess (some (Json.obj fs)) "text_response" =
      lookupField fs "text_response" := rfl
  dsimp only
  rw [hacc2, htr]
  by_cases hs : s = ""
  · subst hs; rfl
  · simp [jsTruthy, hs]
    rfl

/-- Witness for C4 at a concrete input. -/
theorem convertJsonToXml_textOnly_verbatim_witness :
    convertJsonToXml (fun s => Except.error s)
        (some (Json.obj [("response_type", Json.str "text_only"),
          ("text_response", Json.str "hello world")])) =
      { success := true, xml := some (Json.str "hello world"), thinking := none } :=
  convertJsonToXml_textOnly_verbatim (fun s => Except.error s)
    [("response_type", Json.str "text_only"), ("text_response", Json.str "hello world")]
    "hello world" rfl rfl

/-- C10: for a `text_only` response whose `text_response` is absent or falsy,
`convertJsonToXml` still succeeds with `xml` equal to the empty string, while
`validateJsonStructure` rejects the very same object. -/
theorem convertJsonToXml_textOnly_falsy (parse : String → Except String Json)
    (fs : List (String × Json))
    (hrt : lookupField fs "response_type" = some (Json.str "text_only"))
    (htr : jsTruthy (lookupField fs "text_response") = false) :
    convertJsonToXml parse (some (Json.obj fs)) =
      { success := true, xml := some (Json.str ""),
        thinking := lookupField fs "thinking" } ∧
    (validateJsonStructure parse (some (Json.obj fs))).valid = false ∧
    (validateJsonStructure parse (some (Json.obj fs))).errors =
      ["text_response field is required for text_only response_type"] := by
  refine ⟨?_, ?_, ?_⟩
  · have h0 : convertJsonToXml parse (some (Json.obj fs)) =
        convertParsedResponse (some (Json.obj fs)) := rfl
    rw [h0]
    unfold convertParsedResponse
    rw [if_neg (by simp [jsTruthy, jsTypeofObject])]
    have hacc : jsAccess (some (Json.obj fs)) "response_type" =
        lookupField fs "response_type" := rfl
    rw [hacc, hrt]
    have hacc2 : jsAccess (some (Json.obj fs)) "text_response" =
        lookupField fs "text_response" := rfl
    dsimp only
    rw [hacc2, htr]
    rfl
  all_goals
    have h1 : validateJsonStructure parse (some (Json.obj fs)) =
        validateParsed (some (Json.obj fs)) := rfl
    rw [h1]
    unfold validateParsed
    rw [if_neg (by simp [jsTruthy, jsTypeofObject])]
    have hacc : jsAccess (some (Json.obj fs)) "response_type" =
        lookupField fs "response_type" := rfl
    dsimp only
    rw [hacc, hrt]
    have hacc2 : jsAccess (some (Json.obj fs)) "text_response" =
        lookupField fs "text_response" := rfl
    rw [hacc2, htr]
    simp [jsTruthy, rtIncluded]

/-- Witness for C10: `text_response` entirely absent. -/
theorem convertJsonToXml_textOnly_falsy_witness :
    convertJsonToXml (fun s => Except.error s)
        (some (Json.obj [("response_type", Json.str "text_only")])) =
      { success := true, xml := some (Json.str ""), thinking := none } ∧
    (validateJsonStructure (fun s => Except.error s)
        (some (Json.obj [("response_type", Json.str "text_only")]))).valid = false ∧
    (validateJsonStructure (fun s => Except.error s)
        (some (Json.obj [("response_type", Json.str "text_only")]))).errors =
      ["text_response field is required for text_only response_type"] :=
  convertJsonToXml_textOnly_falsy (fun s => Except.error s)
    [("response_type", Json.str "text_only")] rfl rfl

theorem validateParsed_valid_iff (pr : Option Json) :
    (validateParsed pr).valid = true ↔ (validateParsed pr).errors = [] := by
  unfold validateParsed
  dsimp only
  repeat' split
  all_goals simp

/-- Counterexample to C6 as stated: an object with `response_type`
`text_only` and a present (but empty, hence falsy) `text_response` is
rejected by `validateJsonStructure`, although the claim promises
`valid = true` for every present `text_response`. -/
theorem validateJsonStructure_present_empty_counterexample :
    validateJsonStructure (fun s => Except.error s)
        (some (Json.obj [("response_type", Json.str "text_only"),
          ("text_response", Json.str "")])) =
      { valid := false,
        errors := ["text_response field is required for text_only response_type"] } := rfl

/-- C6 (amended): for a `text_only` object whose `text_response` is present
and truthy (a non-empty string), `validateJsonStructure` returns
`valid = true` with an empty error list; and on every input it returns
`valid = false` exactly when the error list is non-empty. -/
theorem validateJsonStructure_textOnly_spec (parse : String → Except String Json)
    (fs : List (String × Json)) (s : String)
    (hrt : lookupField fs "response_type" = some (Json.str "text_only"))
    (htr : lookupField fs "text_response" = some (Json.str s)) (hs : s ≠ "") :
    validateJsonStructure parse (some (Json.obj fs)) = { valid := true, errors := [] } ∧
    (∀ input, (validateJsonStructure parse input).valid = true ↔
      (validateJsonStructure parse input).errors = []) := by
  constructor
  · have h1 : validateJsonStructure parse (some (Json.obj fs)) =
        validateParsed (some (Json.obj fs)) := rfl
    rw [h1]
    unfold validateParsed
    rw [if_neg (by simp [jsTruthy, jsTypeofObject])]
    have hacc : jsAccess (some (Json.obj fs)) "response_type" =
        lookupField fs "response_type" := rfl
    dsimp only
    rw [hacc, hrt]
    have hacc2 : jsAccess (some (Json.obj fs)) "text_response" =
        lookupField fs "text_response" := rfl
    rw [hacc2, htr]
    simp [jsTruthy, rtIncluded, hs]
  · intro input
    unfold validateJsonStructure
    split
    · split
      · simp
      · exact validateParsed_valid_iff _
    · exact validateParsed_valid_iff _

/-- Witness for C6 at a concrete input with a non-empty `text_response`. -/
theorem validateJsonStructure_textOnly_spec_witness :
    validateJsonStructure (fun s => Except.error s)
        (some (Json.obj [("response_type", Json.str "text_only"),
          ("text_response", Json.str "ok")])) =
      { valid := true, errors := [] } :=
  (validateJsonStructure_textOnly_spec (fun s => Except.error s)
    [("response_type", Json.str "text_only"), ("text_response", Json.str "ok")]
    "ok" rfl rfl (by decide)).1

/-- C7: the `list_files` encoder emits `<path>` escaped and emits
`<recursive>` exactly when the field is set — including `false` — rendered as
the boolean literal; and the concrete scenario response converts successfully
to the expected output containing `<list_files>`, `<path>src</path>` and
`<recursive>true</recursive>`. -/
theorem convertListFilesToXml_spec (tus : List (String × Json)) (p : String)
    (hp : lookupField tus "path" = some (Json.str p)) :
    (lookupField tus "recursive" = none →
      convertListFilesToXml (Json.obj tus) =
        Except.ok ("<list_files>\n<path>" ++ escapeXml p ++ "</path>\n" ++ "</list_files>")) ∧
    (∀ b : Bool, lookupField tus "recursive" = some (Json.bool b) →
      convertListFilesToXml (Json.obj tus) =
        Except.ok ("<list_files>\n<path>" ++ escapeXml p ++ "</path>\n" ++
          ("<recursive>" ++ (if b then "true" else "false") ++ "</recursive>\n") ++
          "</list_files>")) ∧
    (∀ parse, convertJsonToXml parse
        (some (Json.obj [("response_type", Json.str "single_tool"),
          ("single_tool", Json.obj [("tool_use", Json.obj [("tool", Json.str "list_files"),
            ("path", Json.str "src"), ("recursive", Json.bool true)])])])) =
      { success := true,
        xml := some (Json.str
          "<list_files>\n<path>src</path>\n<recursive>true</recursive>\n</list_files>") }) ∧
    occursIn "<list_files>".data
      "<list_files>\n<path>src</path>\n<recursive>true</recursive>\n</list_files>".data = true ∧
    occursIn "<path>src</path>".data
      "<list_files>\n<path>src</path>\n<recursive>true</recursive>\n</list_files>".data = true ∧
    occursIn "<recursive>true</recursive>".data
      "<list_files>\n<path>src</path>\n<recursive>true</recursive>\n</list_files>".data = true := by
  refine ⟨?_, ?_, fun parse => rfl, by decide, by decide, by decide⟩
  · intro hr
    simp only [convertListFilesToXml, jsGetField, hp, hr, escapeXmlJs, Bind.bind, Except.bind,
      pure, Except.pure, String.append_empty]
  · intro b hb
    simp only [convertListFilesToXml, jsGetField, hp, hb, escapeXmlJs, Bind.bind, Except.bind,
      pure, Except.pure, jsToString]

/-- Witness for C7 at the concrete scenario tool use. -/
theorem convertListFilesToXml_spec_witness :
    convertListFilesToXml (Json.obj [("tool", Json.str "list_files"), ("path", Json.str "src"),
        ("recursive", Json.bool true)]) =
      Except.ok ("<list_files>\n<path>" ++ escapeXml "src" ++ "</path>\n" ++
        ("<recursive>" ++ (if true then "true" else "false") ++ "</recursive>\n") ++
        "</list_files>") :=
  ((convertListFilesToXml_spec
    [("tool", Json.str "list_files"), ("path", Json.str "src"), ("recursive", Json.bool true)]
    "src" rfl).2.1) true rfl

/-- C5: fragments of the multiple-tools encoder are joined with exactly one
blank line (two newline characters) in input order: a singleton encodes to
its own fragment, a head with a non-empty tail encodes to the head fragment,
a blank line, and the tail encoding, and two invocations encode to
`encode(tool1) ++ "\n\n" ++ encode(tool2)`. -/
theorem convertMultipleToolsToXml_join (t1 t2 : Json) (x1 x2 : String)
    (h1 : convertSingleToolToXml t1 = Except.ok x1)
    (h2 : convertSingleToolToXml t2 = Except.ok x2) :
    (∀ t x, convertSingleToolToXml t = Except.ok x →
      convertMultipleToolsToXml [t] = Except.ok x) ∧
    (∀ t x ts rest, convertSingleToolToXml t = Except.ok x → ts ≠ [] →
      convertMultipleToolsToXml ts = Except.ok rest →
      convertMultipleToolsToXml (t :: ts) = Except.ok (x ++ "\n\n" ++ rest)) ∧
    convertMultipleToolsToXml [t1, t2] = Except.ok (x1 ++ "\n\n" ++ x2) := by
  have single : ∀ t x, convertSingleToolToXml t = Except.ok x →
      convertMultipleToolsToXml [t] = Except.ok x := by
    intro t x h
    unfold convertMultipleToolsToXml
    simp only [exceptMapM, h]
    rfl
  have consCase : ∀ t x ts rest, convertSingleToolToXml t = Except.ok x → ts ≠ [] →
      convertMultipleToolsToXml ts = Except.ok rest →
      convertMultipleToolsToXml (t :: ts) = Except.ok (x ++ "\n\n" ++ rest) := by
    intro t x ts rest h hne hrest
    obtain ⟨frags, hmap, hjoin⟩ := convertMultipleToolsToXml_inv ts rest hrest
    have hfrags : frags ≠ [] := by
      intro hnil
      have hlen := exceptMapM_length convertSingleToolToXml ts frags hmap
      rw [hnil] at hlen
      exact hne (List.eq_nil_of_length_eq_zero hlen.symm)
    unfold convertMultipleToolsToXml
    simp only [exceptMapM, h, hmap]
    rw [joinSep_cons_of_ne_nil _ _ _ hfrags, hjoin]
  exact ⟨single, consCase, consCase t1 x1 [t2] x2 h1 (by simp) (single t2 x2 h2)⟩

/-- Witness for C5 with two concrete tool invocations. -/
theorem convertMultipleToolsToXml_join_witness :
    convertMultipleToolsToXml
        [Json.obj [("tool", Json.str "list_code_definition_names"), ("path", Json.str "a")],
         Json.obj [("tool", Json.str "fetch_instructions"), ("task", Json.str "create_mode")]] =
      Except.ok ("<list_code_definition_names>\n<path>a</path>\n</list_code_definition_names>" ++
        "\n\n" ++ "<fetch_instructions>\n<task>create_mode</task>\n</fetch_instructions>") :=
  (convertMultipleToolsToXml_join
    (Json.obj [("tool", Json.str "list_code_definition_names"), ("path", Json.str "a")])
    (Json.obj [("tool", Json.str "fetch_instructions"), ("task", Json.str "create_mode")])
    "<list_code_definition_names>\n<path>a</path>\n</list_code_definition_names>"
    "<fetch_instructions>\n<task>create_mode</task>\n</fetch_instructions>"
    rfl rfl).2.2

/-- Counterexample to C3 as stated: a file entry with a present but empty
`line_range` yields a `<file>` block with no `<line_range>` tag, because the
source guards the tag with a truthiness test, not a presence test. -/
theorem convertReadFileToXml_empty_lineRange_counterexample :
    convertReadFileToXml (Json.obj [("args", Json.obj [("file",
        Json.obj [("path", Json.str "a.txt"), ("line_range", Json.str "")])])]) =
      Except.ok
        "<read_file>\n<args>\n  <file>\n    <path>a.txt</path>\n  </file>\n</args>\n</read_file>" ∧
    occursIn "<line_range>".data
      "<read_file>\n<args>\n  <file>\n    <path>a.txt</path>\n  </file>\n</args>\n</read_file>".data
      = false :=
  ⟨rfl, by decide⟩

theorem exceptMapM_single_fileRef (p : String) (lr : Option String) :
    exceptMapM readFileEntryBlock [some (fileRefToJson p lr)] =
      Except.ok [fileRefBlockSpec p lr] := by
  simp only [exceptMapM, readFileEntryBlock_eval]

/-- C3 (amended): a `read_file` invocation with a list of file entries emits
one `<file>` block per entry, in input order, each with `<path>` escaped and
with `<line_range>` escaped when it is present and non-empty (truthy); a
single non-array `FileRef` is normalized to a one-element sequence. -/
theorem convertReadFileToXml_spec (refs : List (String × Option String)) :
    convertReadFileToXml (Json.obj [("args", Json.obj [("file",
        Json.arr (refs.map (fun pr => fileRefToJson pr.1 pr.2)))])]) =
      Except.ok ("<read_file>\n<args>\n" ++
        concatAll (refs.map (fun pr => fileRefBlockSpec pr.1 pr.2)) ++
        "</args>\n</read_file>") ∧
    (∀ p lr, convertReadFileToXml (Json.obj [("args", Json.obj [("file",
        fileRefToJson p lr)])]) =
      Except.ok ("<read_file>\n<args>\n" ++ fileRefBlockSpec p lr ++
        "</args>\n</read_file>")) := by
  constructor
  · have h0 : convertReadFileToXml (Json.obj [("args", Json.obj [("file",
        Json.arr (refs.map (fun pr => fileRefToJson pr.1 pr.2)))])]) =
        Except.bind (exceptMapM readFileEntryBlock
            ((refs.map (fun pr => fileRefToJson pr.1 pr.2)).map some))
          (fun blocks => Except.ok ("<read_file>\n<args>\n" ++ concatAll blocks ++
            "</args>\n</read_file>")) := rfl
    rw [h0, exceptMapM_fileRefs]
    rfl
  · intro p lr
    have h0 : convertReadFileToXml (Json.obj [("args", Json.obj [("file",
        fileRefToJson p lr)])]) =
        Except.bind (exceptMapM readFileEntryBlock [some (fileRefToJson p lr)])
          (fun blocks => Except.ok ("<read_file>\n<args>\n" ++ concatAll blocks ++
            "</args>\n</read_file>")) := rfl
    rw [h0, exceptMapM_single_fileRef]
    show Except.ok ("<read_file>\n<args>\n" ++ concatAll [fileRefBlockSpec p lr] ++
      "</args>\n</read_file>") = _
    simp [concatAll, String.append_empty]

/-- C1: the orchestrator is total — every result either succeeds or is a
failure carrying an error message, never an escaped exception — and in
particular a `single_tool` response whose `tool` tag is none of the seven
known kinds makes the dispatcher throw `Unknown tool type: ...`, which the
orchestrator catches and converts into `success = false` with a descriptive
`Conversion error` message. -/
theorem convertJsonToXml_total_unknown_tool (parse : String → Except String Json)
    (fs sts tus : List (String × Json)) (t : String)
    (hrt : lookupField fs "response_type" = some (Json.str "single_tool"))
    (hst : lookupField fs "single_tool" = some (Json.obj sts))
    (htu : lookupField sts "tool_use" = some (Json.obj tus))
    (htool : lookupField tus "tool" = some (Json.str t))
    (h1 : t ≠ "read_file") (h2 : t ≠ "search_files") (h3 : t ≠ "list_files")
    (h4 : t ≠ "list_code_definition_names") (h5 : t ≠ "write_to_file")
    (h6 : t ≠ "apply_diff") (h7 : t ≠ "fetch_instructions") :
    (∀ input, (convertJsonToXml parse input).success = true ∨
      ((convertJsonToXml parse input).success = false ∧
        (convertJsonToXml parse input).error.isSome = true)) ∧
    convertSingleToolToXml (Json.obj tus) = Except.error ("Unknown tool type: " ++ t) ∧
    convertJsonToXml parse (some (Json.obj fs)) =
      { success := false,
        error := some ("Conversion error: " ++ ("Unknown tool type: " ++ t)) } := by
  have hdisp : convertSingleToolToXml (Json.obj tus) =
      Except.error ("Unknown tool type: " ++ t) := by
    unfold convertSingleToolToXml
    have hacc : jsGetField (some (Json.obj tus)) "tool" =
        Except.ok (lookupField tus "tool") := rfl
    rw [hacc, htool]
    dsimp only
    split
    all_goals try rfl
    all_goals
      rename_i heq
      injection heq with heqa
      injection heqa with heqb
    · exact absurd heqb h1
    · exact absurd heqb h2
    · exact absurd heqb h3
    · exact absurd heqb h4
    · exact absurd heqb h5
    · exact absurd heqb h6
    · exact absurd heqb h7
  refine ⟨fun input => ?_, hdisp, ?_⟩
  · have hwf := convertJsonToXml_wf parse input
    cases hsucc : (convertJsonToXml parse input).success with
    | true => exact Or.inl rfl
    | false => exact Or.inr ⟨rfl, (hwf.2 hsucc).1⟩
  · have h0 : convertJsonToXml parse (some (Json.obj fs)) =
        convertParsedResponse (some (Json.obj fs)) := rfl
    rw [h0]
    unfold convertParsedResponse
    rw [if_neg (by simp [jsTruthy, jsTypeofObject])]
    have hacc : jsAccess (some (Json.obj fs)) "response_type" =
        lookupField fs "response_type" := rfl
    dsimp only
    rw [hacc, hrt]
    have hacc2 : jsAccess (some (Json.obj fs)) "single_tool" =
        lookupField fs "single_tool" := rfl
    rw [hacc2, hst]
    have hacc3 : optChainGet (some (Json.obj sts)) "tool_use" =
        lookupField sts "tool_use" := rfl
    rw [hacc3, htu]
    have hgetd : (some (Json.obj tus)).getD Json.null = Json.obj tus := rfl
    rw [hgetd, hdisp]
    rfl

/-- Witness for C1: the unknown tool tag `foo` produces the caught failure. -/
theorem convertJsonToXml_total_unknown_tool_witness :
    convertSingleToolToXml (Json.obj [("tool", Json.str "foo")]) =
      Except.error ("Unknown tool type: " ++ "foo") ∧
    convertJsonToXml (fun s => Except.error s)
        (some (Json.obj [("response_type", Json.str "single_tool"),
          ("single_tool", Json.obj [("tool_use", Json.obj [("tool", Json.str "foo")])])])) =
      { success := false,
        error := some ("Conversion error: " ++ ("Unknown tool type: " ++ "foo")) } :=
  ⟨(convertJsonToXml_total_unknown_tool (fun s => Except.error s)
      [("response_type", Json.str "single_tool"),
        ("single_tool", Json.obj [("tool_use", Json.obj [("tool", Json.str "foo")])])]
      [("tool_use", Json.obj [("tool", Json.str "foo")])]
      [("tool", Json.str "foo")] "foo" rfl rfl rfl rfl
      (by decide) (by decide) (by decide) (by decide) (by decide) (by decide) (by decide)).2.1,
    (convertJsonToXml_total_unknown_tool (fun s => Except.error s)
      [("response_type", Json.str "single_tool"),
        ("single_tool", Json.obj [("tool_use", Json.obj [("tool", Json.str "foo")])])]
      [("tool_use", Json.obj [("tool", Json.str "foo")])]
      [("tool", Json.str "foo")] "foo" rfl rfl rfl rfl
      (by decide) (by decide) (by decide) (by decide) (by decide) (by decide) (by decide)).2.2⟩
